import Mathlib

/-!
The pmgo command-line client (`lib/cli/cli.go`).

A shallow embedding of the process-control command dispatcher and of the log
reader / follower of the pmgo client.

* Every command of `Cli` is a function from the daemon state to a `Run`: the
  ordered list of observable events (remote calls, log records), the way the
  command ended, and the daemon state afterwards.
* `log.Fatalf` writes a record of level `fatal` and terminates the process:
  the run ends with `Outcome.fatal`.  `log.Errorf`, `log.Warnf`, `log.Infof`
  write a record and execution goes on.
* `Cli.Logs` / `Cli.getLogs` run against a `FileSystem`; `Cli.followLogs` is a
  small-step machine over the main goroutine, the two tail goroutines and the
  `sync.WaitGroup` counter.
-/

namespace Pmgo

/-! ## Data model -/

/-- The rendering of a Go `error` value under `%+v`. -/
abbrev Error := String

/-- The logrus severities used by the client. -/
inductive Level where
  | info
  | warn
  | error
  | fatal
  deriving DecidableEq, Repr

/-- The operations of the remote client, as they appear on the wire. -/
inductive Call where
  | saveAll
  | startFromSource (sourcePath name : String) (keepAlive : Bool) (args : List String)
      (binFile : Bool)
  | startByName (name : String)
  | restartByName (name : String)
  | stopByName (name : String)
  | deleteByName (name : String)
  | queryByName (name : String)
  | queryAllStatus
  deriving DecidableEq, Repr

/-- A cell of the rendered table: plain text or text wrapped by a `color` helper. -/
inductive Cell where
  | plain (s : String)
  | green (s : String)
  | red (s : String)
  | cyan (s : String)
  deriving DecidableEq, Repr

/-- Observable events of a dispatcher command, in program order. -/
inductive Event where
  | remote (c : Call)
  | log (lvl : Level) (msg : String)
  | render (header : List String) (rows : List (List Cell))
  deriving DecidableEq, Repr

/-- How a command ends: it returns to its caller, or `log.Fatalf` exits the process. -/
inductive Outcome where
  | returned
  | fatal
  deriving DecidableEq, Repr

/-- Modelled from the spec: `master.ProcDetail`, the `*map[string]string` returned by
`GetProcByName` (package `lib/master` is absent).  A field-name to display-string
mapping; `len` is the number of entries and the empty mapping means "not found". -/
abbrev ProcDetail := List (String × String)

/-- Modelled from the spec: the `Status.Sys` part of a process descriptor (package
`lib/master` is absent); `CPU` and `Memory` are kept after the `int(...)` conversion. -/
structure SysInfo where
  CPU : Int
  Memory : Int
  deriving DecidableEq, Repr

/-- Modelled from the spec: the `Status` part of a process descriptor (absent package
`lib/master`). -/
structure ProcStatus where
  Status : String
  Uptime : String
  Restarts : Int
  Sys : SysInfo
  deriving DecidableEq, Repr

/-- Modelled from the spec: one process descriptor of a status snapshot (absent package
`lib/master`). -/
structure ProcDataResponse where
  Name : String
  Pid : Int
  Status : ProcStatus
  deriving DecidableEq, Repr

/-- Modelled from the spec: the snapshot returned by `MonitStatus` (absent package
`lib/master`); `Procs` is ranged over by index, in order. -/
structure ProcResponse where
  Procs : List ProcDataResponse
  deriving DecidableEq, Repr

/-- Modelled from the spec: the RemoteClient adapter of `lib/master` (absent), over an
arbitrary daemon state `σ`.  A mutating operation returns `none` on success or
`some err`, together with the next daemon state; the two queries only read the state. -/
structure RemoteClient (σ : Type) where
  Save : σ → Option Error × σ
  StartGoBin : String → String → Bool → List String → Bool → σ → Option Error × σ
  RestartProcess : String → σ → Option Error × σ
  StartProcess : String → σ → Option Error × σ
  StopProcess : String → σ → Option Error × σ
  DeleteProcess : String → σ → Option Error × σ
  GetProcByName : String → σ → ProcDetail
  MonitStatus : σ → Except Error ProcResponse

/-- The result of running one dispatcher command. -/
structure Run (σ : Type) where
  events : List Event
  outcome : Outcome
  daemon : σ

/-! ## The command dispatcher -/

namespace Cli

variable {σ : Type}

/-- `Cli.Save`. -/
def Save (rc : RemoteClient σ) (s : σ) : Run σ :=
  match rc.Save s with
  | (some err, s1) =>
    ⟨[.remote .saveAll,
      .log .fatal ("Failed to save list of processes due to: " ++ err ++ "\n")], .fatal, s1⟩
  | (none, s1) => ⟨[.remote .saveAll], .returned, s1⟩

/-- `Cli.StartGoBin`. -/
def StartGoBin (rc : RemoteClient σ) (sourcePath name : String) (keepAlive : Bool)
    (args : List String) (binFile : Bool) (s : σ) : Run σ :=
  match rc.StartGoBin sourcePath name keepAlive args binFile s with
  | (some err, s1) =>
    ⟨[.remote (.startFromSource sourcePath name keepAlive args binFile),
      .log .fatal ("Failed to start go bin due to: " ++ err ++ "\n")], .fatal, s1⟩
  | (none, s1) =>
    ⟨[.remote (.startFromSource sourcePath name keepAlive args binFile)], .returned, s1⟩

/-- `Cli.RestartProcess`. -/
def RestartProcess (rc : RemoteClient σ) (procName : String) (s : σ) : Run σ :=
  let isExist := rc.GetProcByName procName s
  if isExist.length = 0 then
    ⟨[.remote (.queryByName procName),
      .log .error ("porcess " ++ procName ++ " not found")], .returned, s⟩
  else
    match rc.RestartProcess procName s with
    | (some err, s1) =>
      ⟨[.remote (.queryByName procName), .remote (.restartByName procName),
        .log .fatal ("Failed to restart process due to: " ++ err ++ "\n")], .fatal, s1⟩
    | (none, s1) =>
      ⟨[.remote (.queryByName procName), .remote (.restartByName procName)], .returned, s1⟩

/-- `Cli.StartProcess`. -/
def StartProcess (rc : RemoteClient σ) (procName : String) (s : σ) : Run σ :=
  match rc.StartProcess procName s with
  | (some err, s1) =>
    ⟨[.remote (.startByName procName),
      .log .error ("Failed to start process due to: " ++ err ++ "\n")], .returned, s1⟩
  | (none, s1) => ⟨[.remote (.startByName procName)], .returned, s1⟩

/-- `Cli.StopProcess`. -/
def StopProcess (rc : RemoteClient σ) (procName : String) (s : σ) : Run σ :=
  let isExist := rc.GetProcByName procName s
  if isExist.length = 0 then
    ⟨[.remote (.queryByName procName),
      .log .warn ("porcess " ++ procName ++ " not found")], .returned, s⟩
  else
    match rc.StopProcess procName s with
    | (some err, s1) =>
      ⟨[.remote (.queryByName procName), .remote (.stopByName procName),
        .log .fatal ("Failed to stop process due to: " ++ err ++ "\n")], .fatal, s1⟩
    | (none, s1) =>
      ⟨[.remote (.queryByName procName), .remote (.stopByName procName)], .returned, s1⟩

/-- `Cli.DeleteProcess`. -/
def DeleteProcess (rc : RemoteClient σ) (procName : String) (s : σ) : Run σ :=
  let isExist := rc.GetProcByName procName s
  if isExist.length = 0 then
    ⟨[.remote (.queryByName procName),
      .log .error ("porcess " ++ procName ++ " not found")], .returned, s⟩
  else
    match rc.DeleteProcess procName s with
    | (some err, s1) =>
      ⟨[.remote (.queryByName procName), .remote (.deleteByName procName),
        .log .fatal ("Failed to delete process due to: " ++ err ++ "\n")], .fatal, s1⟩
    | (none, s1) =>
      ⟨[.remote (.queryByName procName), .remote (.deleteByName procName)], .returned, s1⟩

/-- One row of the status table, for one process of the snapshot.  `fmtMem` stands for
`utils.FormatMemory`. -/
def statusRow (fmtMem : Int → String) (proc : ProcDataResponse) : List Cell :=
  let status :=
    if proc.Status.Status ≠ "running" then Cell.red proc.Status.Status
    else Cell.green proc.Status.Status
  [.cyan proc.Name, .plain (toString proc.Pid), status, .plain proc.Status.Uptime,
   .plain (toString proc.Status.Restarts), .plain (toString proc.Status.Sys.CPU),
   .plain (fmtMem proc.Status.Sys.Memory)]

/-- `Cli.Status`. -/
def Status (fmtMem : Int → String) (rc : RemoteClient σ) (s : σ) : Run σ :=
  match rc.MonitStatus s with
  | .error err =>
    ⟨[.remote .queryAllStatus,
      .log .fatal ("Failed to get status due to: " ++ err ++ "\n")], .fatal, s⟩
  | .ok procResponse =>
    ⟨[.remote .queryAllStatus,
      .render ["name", "pid", "status", "uptime", "restart", "CPU·%", "memory"]
        (procResponse.Procs.map (statusRow fmtMem))], .returned, s⟩

/-- `Cli.ProcInfo`.  `*procDetail` is a Go map and `for k, v := range` visits its
entries in an order the runtime picks anew on each run: `rangeOrder` stands for that
choice, giving the entries in the order they are visited. -/
def ProcInfo (rangeOrder : ProcDetail → ProcDetail) (rc : RemoteClient σ)
    (procName : String) (s : σ) : Run σ :=
  let procDetail := rc.GetProcByName procName s
  if procDetail.length = 0 then
    ⟨[.remote (.queryByName procName),
      .log .error ("porcess " ++ procName ++ " not found")], .returned, s⟩
  else
    ⟨[.remote (.queryByName procName),
      .render [] ((rangeOrder procDetail).map fun kv => [Cell.green kv.1, Cell.plain kv.2])],
      .returned, s⟩

/-- The body of the `for id := range procResponse.Procs` loop of `Cli.DeleteAllProcess`,
iterated over the snapshot: the error returned by `DeleteProcess` is dropped. -/
def deleteAllLoop (rc : RemoteClient σ) : List ProcDataResponse → σ → List Event × σ
  | [], s => ([], s)
  | proc :: rest, s =>
    let s1 := (rc.DeleteProcess proc.Name s).2
    let r := deleteAllLoop rc rest s1
    (.remote (.deleteByName proc.Name) ::
      .log .info ("proc: " ++ proc.Name ++ " has quit") :: r.1, r.2)

/-- `Cli.DeleteAllProcess`. -/
def DeleteAllProcess (rc : RemoteClient σ) (s : σ) : Run σ :=
  match rc.MonitStatus s with
  | .error err =>
    ⟨[.remote .queryAllStatus,
      .log .fatal ("Failed to get status due to: " ++ err ++ "\n")], .fatal, s⟩
  | .ok procResponse =>
    if procResponse.Procs.length = 0 then
      ⟨[.remote .queryAllStatus,
        .log .warn "All processes have been stopped and deleted"], .returned, s⟩
    else
      let r := deleteAllLoop rc procResponse.Procs s
      ⟨.remote .queryAllStatus :: r.1, .returned, r.2⟩

end Cli

/-! ## Log files: `Cli.Logs`, `Cli.getLogs` -/

/-- The environment of the log commands.  `UserHomeDir` is `os.UserHomeDir`, `Stat p`
tells whether `os.Stat p` succeeds, `Open p` is the byte content read through the handle
returned by `os.Open p`, or `none` when opening fails. -/
structure FileSystem where
  UserHomeDir : Except Error String
  Stat : String → Bool
  Open : String → Option (List Nat)

/-- What `fmt.Println` receives: a Go string built by the client, or the bytes of a
line taken from a log file. -/
inductive Text where
  | str (s : String)
  | raw (bytes : List Nat)
  deriving DecidableEq, Repr

/-- Observable events of the log commands, in program order. -/
inductive LogEvent where
  | stat (path : String)
  | openFile (path : String)
  | close (path : String)
  | println (t : Text)
  deriving DecidableEq, Repr

/-- The byte `'\n'`. -/
def newline : Nat := 10

/-- The byte `'\r'`. -/
def carriageReturn : Nat := 13

/-- `bufio.MaxScanTokenSize`, the buffer limit of a scanner made by `bufio.NewScanner`. -/
def MaxScanTokenSize : Nat := 64 * 1024

/-- `dropCR` of `bufio`: drop one trailing `'\r'`. -/
def dropCR (data : List Nat) : List Nat :=
  if data.getLast? = some carriageReturn then data.dropLast else data

/-- The tokens delivered by `for scanner.Scan() { ... scanner.Text() ... }` reading
`input` through a scanner made by `bufio.NewScanner` (split function
`bufio.ScanLines`, buffer limit `MaxScanTokenSize`); `cur` holds the bytes of the line
being assembled.  A line is delivered when its terminating `'\n'` fits the buffer
together with the line (or, for a last line without `'\n'`, when end of file is seen
before the buffer is full).  Once `MaxScanTokenSize` bytes are buffered without a
`'\n'`, `Scan` fails with `ErrTooLong` and returns `false`: the loop ends and nothing
more is delivered. -/
def scanFrom (cur : List Nat) : List Nat → List (List Nat)
  | [] =>
    if cur = [] then []
    else if MaxScanTokenSize ≤ cur.length then []
    else [dropCR cur]
  | b :: rest =>
    if b = newline then
      if MaxScanTokenSize ≤ cur.length then []
      else dropCR cur :: scanFrom [] rest
    else scanFrom (cur ++ [b]) rest

/-- All tokens a fresh line scanner delivers for a file of content `content`. -/
def scanLines (content : List Nat) : List (List Nat) :=
  scanFrom [] content

/-- The path of the per-process log directory. -/
def logDir (userDirectory name : String) : String :=
  userDirectory ++ "/.pmgo/" ++ name

/-- The path `fmt.Sprintf("%s/.pmgo/%s/%s.err", userDirectory, name, name)`. -/
def errFile (userDirectory name : String) : String :=
  userDirectory ++ "/.pmgo/" ++ name ++ "/" ++ name ++ ".err"

/-- The path `fmt.Sprintf("%s/.pmgo/%s/%s.out", userDirectory, name, name)`. -/
def outFile (userDirectory name : String) : String :=
  userDirectory ++ "/.pmgo/" ++ name ++ "/" ++ name ++ ".out"

/-- The text of `fmt.Errorf("Process %s logs not found", name)`. -/
def logsNotFound (name : String) : Text :=
  .str ("Process " ++ name ++ " logs not found")

/-! ### The follower: `Cli.followLogs` -/

/-- State of one goroutine started by `followLogs`. -/
inductive Watcher where
  /-- started, `tail.TailFile` has not returned yet -/
  | opening (file : String)
  /-- ranging over `t.Lines` -/
  | tailing (file : String)
  /-- `t.Lines` was closed and the goroutine ended -/
  | finished (file : String)
  /-- `tail.TailFile` failed and the goroutine panicked -/
  | panicked (file : String)
  deriving DecidableEq, Repr

/-- The file a watcher was started for. -/
def Watcher.file : Watcher → String
  | .opening f => f
  | .tailing f => f
  | .finished f => f
  | .panicked f => f

/-- Whether the goroutine has ended normally. -/
def Watcher.completed : Watcher → Bool
  | .finished _ => true
  | _ => false

/-- Program counter of the goroutine that runs `followLogs`. -/
inductive MainPc where
  /-- in the loop, before `wg.Add(1)` for `file`; `rest` are the files still to come -/
  | atAdd (file : String) (rest : List String)
  /-- in the loop, before the `go` statement for `file` -/
  | atGo (file : String) (rest : List String)
  /-- at `wg.Wait()` -/
  | atWait
  /-- `followLogs` has returned to its caller -/
  | returned
  deriving DecidableEq, Repr

/-- Where the main goroutine stands when the loop reaches the files `files`. -/
def MainPc.enterLoop : List String → MainPc
  | [] => .atWait
  | f :: rest => .atAdd f rest

/-- State of a `followLogs` call: the main goroutine, the `sync.WaitGroup` counter,
the goroutines started so far (in start order), standard output, and whether a panic
has taken the process down. -/
structure FollowState where
  pc : MainPc
  wg : Nat
  watchers : List Watcher
  stdout : List Text
  crashed : Bool
  deriving DecidableEq, Repr

/-- One scheduling step: the main goroutine runs its next statement, or something
happens in the goroutine with index `i`. -/
inductive Action where
  | main
  | tailOpened (i : Nat)
  | tailFailed (i : Nat)
  | line (i : Nat) (text : List Nat)
  | linesClosed (i : Nat)
  deriving DecidableEq, Repr

/-- The small-step semantics of `followLogs`; `none` when the action is not enabled.
The goroutine body holds no `wg.Done()`, so no step lowers the counter, and
`wg.Wait()` lets the main goroutine through only when the counter is zero. -/
def step (s : FollowState) : Action → Option FollowState
  | .main =>
    if s.crashed then none
    else match s.pc with
      | .atAdd f rest => some { s with pc := .atGo f rest, wg := s.wg + 1 }
      | .atGo f rest =>
        some { s with pc := MainPc.enterLoop rest, watchers := s.watchers ++ [.opening f] }
      | .atWait => if s.wg = 0 then some { s with pc := .returned } else none
      | .returned => none
  | .tailOpened i =>
    if s.crashed then none
    else match s.watchers.get? i with
      | some (.opening f) => some { s with watchers := s.watchers.set i (.tailing f) }
      | _ => none
  | .tailFailed i =>
    if s.crashed then none
    else match s.watchers.get? i with
      | some (.opening f) =>
        some { s with watchers := s.watchers.set i (.panicked f), crashed := true }
      | _ => none
  | .line i text =>
    if s.crashed then none
    else match s.watchers.get? i with
      | some (.tailing _) => some { s with stdout := s.stdout ++ [.raw text] }
      | _ => none
  | .linesClosed i =>
    if s.crashed then none
    else match s.watchers.get? i with
      | some (.tailing f) => some { s with watchers := s.watchers.set i (.finished f) }
      | _ => none

/-- Run a schedule from a state. -/
def run (s : FollowState) : List Action → Option FollowState
  | [] => some s
  | a :: as =>
    match step s a with
    | some s1 => run s1 as
    | none => none

/-- The invariant of `followLogs` over the files `files` it is given: the counter
equals the number of goroutines started (plus one between `wg.Add(1)` and the `go`
statement), the goroutines started so far are those of the files already passed, in
order, and the call has not returned. -/
def FollowInv (files : List String) (s : FollowState) : Prop :=
  match s.pc with
  | .atAdd f rest =>
    s.wg = s.watchers.length ∧ s.watchers.map Watcher.file ++ f :: rest = files
  | .atGo f rest =>
    s.wg = s.watchers.length + 1 ∧ s.watchers.map Watcher.file ++ f :: rest = files
  | .atWait => s.wg = s.watchers.length ∧ s.watchers.map Watcher.file = files
  | .returned => False

/-- How a `Logs` call ends: it returns, it panics, or control is inside `followLogs`,
whose execution goes on from the given machine state. -/
inductive LogsOutcome where
  | returned
  | panicked
  | following (s : FollowState)
  deriving DecidableEq, Repr

/-- The result of the sequential part of a `Logs` call. -/
structure LogsRun where
  events : List LogEvent
  outcome : LogsOutcome
  deriving DecidableEq, Repr

namespace Cli

/-- The `for _, file := range files` loop of `Cli.getLogs`.  Returns the events, the
way the loop ended, and the files whose `defer file.Close()` is pending. -/
def getLogsLoop (fs : FileSystem) (name : String) :
    List String → List LogEvent × LogsOutcome × List String
  | [] => ([], .returned, [])
  | file :: rest =>
    if fs.Stat file = false then
      ([.stat file, .println (logsNotFound name)], .returned, [])
    else
      match fs.Open file with
      | none => ([.stat file, .openFile file], .panicked, [])
      | some content =>
        let r := getLogsLoop fs name rest
        ([.stat file, .openFile file]
            ++ (scanLines content).map (fun l => LogEvent.println (.raw l)) ++ r.1,
          r.2.1, file :: r.2.2)

/-- `Cli.getLogs`: the loop, then the deferred closes in reverse order. -/
def getLogs (fs : FileSystem) (userDirectory name : String) : LogsRun :=
  let r := getLogsLoop fs name [errFile userDirectory name, outFile userDirectory name]
  ⟨r.1 ++ r.2.2.reverse.map LogEvent.close, r.2.1⟩

/-- `Cli.followLogs`: the machine state in which the call starts. -/
def followLogs (userDirectory name : String) : FollowState :=
  { pc := MainPc.enterLoop [errFile userDirectory name, outFile userDirectory name],
    wg := 0, watchers := [], stdout := [], crashed := false }

/-- `Cli.Logs`.  The branch that prints "logs not found" has no `return`: execution
goes on to `followLogs` or `getLogs`. -/
def Logs (fs : FileSystem) (name : String) (follow : Bool) : LogsRun :=
  match fs.UserHomeDir with
  | .error _ => ⟨[], .panicked⟩
  | .ok userDirectory =>
    let pre : List LogEvent :=
      if fs.Stat (userDirectory ++ "/.pmgo/" ++ name) = false then
        [.stat (userDirectory ++ "/.pmgo/" ++ name), .println (logsNotFound name)]
      else [.stat (userDirectory ++ "/.pmgo/" ++ name)]
    if follow then
      ⟨pre, .following (followLogs userDirectory name)⟩
    else
      let r := getLogs fs userDirectory name
      ⟨pre ++ r.events, r.outcome⟩

end Cli

/-! ## Observations on runs -/

/-- The remote calls of an event list, in order. -/
def remoteCalls : List Event → List Call
  | [] => []
  | .remote c :: es => c :: remoteCalls es
  | _ :: es => remoteCalls es

/-- The log records of an event list, in order. -/
def logRecords : List Event → List (Level × String)
  | [] => []
  | .log lvl msg :: es => (lvl, msg) :: logRecords es
  | _ :: es => logRecords es

/-- Whether a call changes the daemon (everything except the two queries). -/
def Call.isMutating : Call → Bool
  | .queryByName _ => false
  | .queryAllStatus => false
  | _ => true

/-- The mutating remote calls of an event list, in order. -/
def mutatingCalls (es : List Event) : List Call :=
  (remoteCalls es).filter Call.isMutating

/-- The names passed to `deleteByName`, in call order. -/
def deleteAttempts : List Event → List String
  | [] => []
  | .remote (.deleteByName n) :: es => n :: deleteAttempts es
  | _ :: es => deleteAttempts es

/-- The lines printed from log files, in print order. -/
def printedLines : List LogEvent → List (List Nat)
  | [] => []
  | .println (.raw l) :: es => l :: printedLines es
  | _ :: es => printedLines es

/-- Everything printed, in print order. -/
def printed : List LogEvent → List Text
  | [] => []
  | .println t :: es => t :: printed es
  | _ :: es => printed es

/-- The files opened, in order. -/
def openedFiles : List LogEvent → List String
  | [] => []
  | .openFile p :: es => p :: openedFiles es
  | _ :: es => openedFiles es

/-! ## The specification's notion of the lines of a file -/

/-- The pieces of `input` between `'\n'` bytes; `cur` is the piece being assembled.
A last piece without `'\n'` counts when it is not empty. -/
def splitFrom (cur : List Nat) : List Nat → List (List Nat)
  | [] => if cur = [] then [] else [cur]
  | b :: rest =>
    if b = newline then cur :: splitFrom [] rest
    else splitFrom (cur ++ [b]) rest

/-- The raw lines of a file, terminators removed, in file order. -/
def splitLines (content : List Nat) : List (List Nat) :=
  splitFrom [] content

/-- The text of a raw line: a line ends with `'\n'` or with `'\r\n'`, so exactly one
`'\r'` standing right before the `'\n'` belongs to the terminator and every other byte,
further `'\r'` bytes included, is text. -/
def lineText (raw : List Nat) : List Nat :=
  match raw.reverse with
  | [] => []
  | c :: r => if c = carriageReturn then r.reverse else raw

/-- The lines of a file as text, in file order. -/
def fileLines (content : List Nat) : List (List Nat) :=
  (splitLines content).map lineText

/-! ## A concrete daemon, for running the commands on examples -/

/-- A scripted daemon: the names it supervises, whether it answers the status query,
and its answers to the coming mutating calls, in order (`none` is success); once the
script is used up every call succeeds. -/
structure Daemon where
  procs : List String
  answering : Bool
  script : List (Option Error)
  deriving DecidableEq, Repr

/-- Consume the next scripted answer. -/
def Daemon.answer (d : Daemon) : Option Error × Daemon :=
  match d.script with
  | [] => (none, d)
  | r :: rest => (r, { d with script := rest })

/-- The descriptor the scripted daemon reports for a name. -/
def Daemon.descriptor (n : String) : ProcDataResponse :=
  { Name := n, Pid := 1, Status := { Status := "running", Uptime := "1s", Restarts := 0,
                                     Sys := { CPU := 0, Memory := 0 } } }

/-- The remote client talking to a scripted daemon. -/
def scriptedClient : RemoteClient Daemon where
  Save := fun d => d.answer
  StartGoBin := fun _ _ _ _ _ d => d.answer
  RestartProcess := fun _ d => d.answer
  StartProcess := fun _ d => d.answer
  StopProcess := fun _ d => d.answer
  DeleteProcess := fun _ d => d.answer
  GetProcByName := fun n d => if n ∈ d.procs then [("name", n)] else []
  MonitStatus := fun d =>
    if d.answering then .ok { Procs := d.procs.map Daemon.descriptor }
    else .error "connection refused"

/-- A daemon supervising `web` and `worker` whose first mutating call fails. -/
def failingFirst : Daemon :=
  { procs := ["web", "worker"], answering := true, script := [some "boom"] }

/-- A daemon supervising `web` and `worker` on which every call succeeds. -/
def allFine : Daemon :=
  { procs := ["web", "worker"], answering := true, script := [] }

/-- A daemon supervising nothing. -/
def idle : Daemon :=
  { procs := [], answering := true, script := [] }

/-- A daemon that fails the status query. -/
def silent : Daemon :=
  { procs := ["web"], answering := false, script := [] }

/-- A daemon that fails the status query and the next mutating call. -/
def broken : Daemon :=
  { procs := ["web"], answering := false, script := [some "boom"] }

/-! ## Concrete file systems, for running the log commands on examples -/

/-- A home directory `/home/op` under which nothing exists. -/
def emptyHome : FileSystem :=
  { UserHomeDir := .ok "/home/op", Stat := fun _ => false, Open := fun _ => none }

/-- The logs of `web`: `web.err` holds the lines `e1` and `e2` (the second one ended by
`\r\n`), `web.out` holds `o1` and an unterminated `o2`. -/
def smallLogs : FileSystem :=
  { UserHomeDir := .ok "/home/op",
    Stat := fun p =>
      p = "/home/op/.pmgo/web" || p = "/home/op/.pmgo/web/web.err"
        || p = "/home/op/.pmgo/web/web.out",
    Open := fun p =>
      if p = "/home/op/.pmgo/web/web.err" then some [101, 49, 10, 101, 50, 13, 10]
      else if p = "/home/op/.pmgo/web/web.out" then some [111, 49, 10, 111, 50]
      else none }

/-- The content of a `web.err` whose first line is 65536 bytes `a`, followed by the
line `b`. -/
def longErrContent : List Nat :=
  List.replicate 65536 97 ++ [10, 98, 10]

/-- The logs of `web` with `longErrContent` in `web.err` and the line `o` in `web.out`. -/
def longLineLogs : FileSystem :=
  { UserHomeDir := .ok "/home/op",
    Stat := fun p =>
      p = "/home/op/.pmgo/web" || p = "/home/op/.pmgo/web/web.err"
        || p = "/home/op/.pmgo/web/web.out",
    Open := fun p =>
      if p = "/home/op/.pmgo/web/web.err" then some longErrContent
      else if p = "/home/op/.pmgo/web/web.out" then some [111, 10]
      else none }

/-- The state of following `web` once both watchers have seen their channel closed:
the main goroutine still stands at `wg.Wait()`. -/
def bothFinished : FollowState :=
  { pc := .atWait, wg := 2,
    watchers := [.finished "/home/op/.pmgo/web/web.err",
                 .finished "/home/op/.pmgo/web/web.out"],
    stdout := [.raw [111]], crashed := false }

/-! ## Theorems: the command dispatcher -/

section Dispatcher

variable {σ : Type}

theorem remoteCalls_append (xs ys : List Event) :
    remoteCalls (xs ++ ys) = remoteCalls xs ++ remoteCalls ys := by
  induction xs with
  | nil => rfl
  | cons e es ih => cases e <;> simp [remoteCalls, ih]

theorem deleteAllLoop_deleteAttempts (rc : RemoteClient σ) (procs : List ProcDataResponse)
    (s : σ) :
    deleteAttempts (Cli.deleteAllLoop rc procs s).1 = procs.map (fun p => p.Name) := by
  induction procs generalizing s with
  | nil => rfl
  | cons p ps ih => simp [Cli.deleteAllLoop, deleteAttempts, ih]

theorem deleteAllLoop_remoteCalls (rc : RemoteClient σ) (procs : List ProcDataResponse)
    (s : σ) :
    remoteCalls (Cli.deleteAllLoop rc procs s).1
      = procs.map (fun p => Call.deleteByName p.Name) := by
  induction procs generalizing s with
  | nil => rfl
  | cons p ps ih => simp [Cli.deleteAllLoop, remoteCalls, ih]

/-- Whatever the daemon answers, the loop of `DeleteAllProcess` writes the same log
records: one `info` record "has quit" per process. -/
theorem deleteAllLoop_logRecords (rc : RemoteClient σ) (procs : List ProcDataResponse)
    (s : σ) :
    logRecords (Cli.deleteAllLoop rc procs s).1
      = procs.map (fun p => (Level.info, "proc: " ++ p.Name ++ " has quit")) := by
  induction procs generalizing s with
  | nil => rfl
  | cons p ps ih => simp [Cli.deleteAllLoop, logRecords, ih]

/-- C1: when the existence check of `StopProcess` finds an empty detail mapping, the
run is exactly the `queryByName` call followed by one `warn` record; no mutating call
(in particular no `stopByName`) is sent, the command returns normally and the daemon
state is the one it started from. -/
theorem StopProcess_absent_warns (rc : RemoteClient σ) (procName : String) (s : σ)
    (h : rc.GetProcByName procName s = []) :
    (Cli.StopProcess rc procName s).events
        = [.remote (.queryByName procName),
           .log .warn ("porcess " ++ procName ++ " not found")]
      ∧ Call.stopByName procName ∉ remoteCalls (Cli.StopProcess rc procName s).events
      ∧ mutatingCalls (Cli.StopProcess rc procName s).events = []
      ∧ logRecords (Cli.StopProcess rc procName s).events
          = [(Level.warn, "porcess " ++ procName ++ " not found")]
      ∧ (Cli.StopProcess rc procName s).outcome = .returned
      ∧ (Cli.StopProcess rc procName s).daemon = s := by
  simp [Cli.StopProcess, h, remoteCalls, mutatingCalls, logRecords, Call.isMutating]

theorem StopProcess_absent_warns_witness :
    scriptedClient.GetProcByName "ghost" allFine = []
      ∧ (Cli.StopProcess scriptedClient "ghost" allFine).events
          = [.remote (.queryByName "ghost"), .log .warn "porcess ghost not found"]
      ∧ (Cli.StopProcess scriptedClient "ghost" allFine).outcome = .returned :=
  have h := StopProcess_absent_warns scriptedClient "ghost" allFine (by decide)
  ⟨by decide, h.1, h.2.2.2.2.1⟩

/-- C2: when the existence check finds an empty detail mapping, each of
`RestartProcess`, `DeleteProcess` and `ProcInfo` runs exactly the `queryByName` call
followed by one `error` record: the list of mutating calls sent to the daemon is empty,
the command returns (it does not end in a fatal exit) and the daemon state is
unchanged. -/
theorem absent_name_reports_error (rc : RemoteClient σ) (procName : String) (s : σ)
    (rangeOrder : ProcDetail → ProcDetail) (h : rc.GetProcByName procName s = []) :
    (Cli.RestartProcess rc procName s).events
        = [.remote (.queryByName procName),
           .log .error ("porcess " ++ procName ++ " not found")]
      ∧ mutatingCalls (Cli.RestartProcess rc procName s).events = []
      ∧ (Cli.RestartProcess rc procName s).outcome = .returned
      ∧ (Cli.RestartProcess rc procName s).daemon = s
      ∧ (Cli.DeleteProcess rc procName s).events
        = [.remote (.queryByName procName),
           .log .error ("porcess " ++ procName ++ " not found")]
      ∧ mutatingCalls (Cli.DeleteProcess rc procName s).events = []
      ∧ (Cli.DeleteProcess rc procName s).outcome = .returned
      ∧ (Cli.DeleteProcess rc procName s).daemon = s
      ∧ (Cli.ProcInfo rangeOrder rc procName s).events
        = [.remote (.queryByName procName),
           .log .error ("porcess " ++ procName ++ " not found")]
      ∧ mutatingCalls (Cli.ProcInfo rangeOrder rc procName s).events = []
      ∧ (Cli.ProcInfo rangeOrder rc procName s).outcome = .returned
      ∧ (Cli.ProcInfo rangeOrder rc procName s).daemon = s := by
  simp [Cli.RestartProcess, Cli.DeleteProcess, Cli.ProcInfo, h, remoteCalls, mutatingCalls,
    Call.isMutating]

theorem absent_name_reports_error_witness :
    scriptedClient.GetProcByName "ghost" failingFirst = []
      ∧ logRecords (Cli.RestartProcess scriptedClient "ghost" failingFirst).events
          = [(Level.error, "porcess ghost not found")]
      ∧ mutatingCalls (Cli.DeleteProcess scriptedClient "ghost" failingFirst).events = []
      ∧ (Cli.ProcInfo List.reverse scriptedClient "ghost" failingFirst).daemon = failingFirst :=
  have h := absent_name_reports_error scriptedClient "ghost" failingFirst List.reverse
    (by decide)
  ⟨by decide, by rw [h.1]; rfl, h.2.2.2.2.2.1, h.2.2.2.2.2.2.2.2.2.2.2⟩

/-- C3: on a snapshot of `N ≥ 1` processes, whatever the daemon answers to the
individual deletes, `DeleteAllProcess` sends exactly the status query followed by one
`deleteByName` per process of the snapshot, in snapshot order: `N` delete attempts, the
names attempted being the names of the snapshot, and the command returns. -/
theorem DeleteAllProcess_attempts_all (rc : RemoteClient σ) (s : σ) (resp : ProcResponse)
    (hs : rc.MonitStatus s = .ok resp) (hN : 1 ≤ resp.Procs.length) :
    deleteAttempts (Cli.DeleteAllProcess rc s).events = resp.Procs.map (fun p => p.Name)
      ∧ (deleteAttempts (Cli.DeleteAllProcess rc s).events).length = resp.Procs.length
      ∧ remoteCalls (Cli.DeleteAllProcess rc s).events
          = .queryAllStatus :: resp.Procs.map (fun p => Call.deleteByName p.Name)
      ∧ (Cli.DeleteAllProcess rc s).outcome = .returned := by
  have hne : ¬ resp.Procs.length = 0 := by omega
  simp [Cli.DeleteAllProcess, hs, hne, deleteAttempts, remoteCalls,
    deleteAllLoop_deleteAttempts, deleteAllLoop_remoteCalls]

theorem DeleteAllProcess_attempts_all_witness :
    scriptedClient.MonitStatus failingFirst
        = .ok { Procs := [Daemon.descriptor "web", Daemon.descriptor "worker"] }
      ∧ (scriptedClient.DeleteProcess "web" failingFirst).1 = some "boom"
      ∧ deleteAttempts (Cli.DeleteAllProcess scriptedClient failingFirst).events
          = ["web", "worker"]
      ∧ (Cli.DeleteAllProcess scriptedClient failingFirst).outcome = .returned :=
  have h := DeleteAllProcess_attempts_all scriptedClient failingFirst
    { Procs := [Daemon.descriptor "web", Daemon.descriptor "worker"] } rfl (by decide)
  ⟨rfl, by decide, h.1, h.2.2.2⟩

/-- C4 (evaluation at the failing input): on the snapshot `web`, `worker` with
`deleteByName web` failing, `DeleteAllProcess` writes the very same records as on the
run where every delete succeeds, two `info` records "has quit"; the failure of the
first delete appears in no record. -/
theorem DeleteAllProcess_failure_not_logged :
    (scriptedClient.DeleteProcess "web" failingFirst).1 = some "boom"
      ∧ (scriptedClient.DeleteProcess "web" allFine).1 = none
      ∧ logRecords (Cli.DeleteAllProcess scriptedClient failingFirst).events
          = [(Level.info, "proc: web has quit"), (Level.info, "proc: worker has quit")]
      ∧ logRecords (Cli.DeleteAllProcess scriptedClient failingFirst).events
          = logRecords (Cli.DeleteAllProcess scriptedClient allFine).events := by
  decide

/-- C5: when the status query succeeds with an empty process set, `DeleteAllProcess`
runs exactly the query followed by one `warn` record, sends no `deleteByName`, returns
normally and leaves the daemon state as it was; when the status query fails, the run is
the query followed by one `fatal` record, it ends in the fatal exit and no
`deleteByName` is sent. -/
theorem DeleteAllProcess_empty_or_unreachable (rc : RemoteClient σ) (s : σ) :
    (∀ resp, rc.MonitStatus s = .ok resp → resp.Procs = [] →
        (Cli.DeleteAllProcess rc s).events
            = [.remote .queryAllStatus,
               .log .warn "All processes have been stopped and deleted"]
          ∧ remoteCalls (Cli.DeleteAllProcess rc s).events = [.queryAllStatus]
          ∧ deleteAttempts (Cli.DeleteAllProcess rc s).events = []
          ∧ logRecords (Cli.DeleteAllProcess rc s).events
              = [(Level.warn, "All processes have been stopped and deleted")]
          ∧ (Cli.DeleteAllProcess rc s).outcome = .returned
          ∧ (Cli.DeleteAllProcess rc s).daemon = s)
      ∧ (∀ err, rc.MonitStatus s = .error err →
        (Cli.DeleteAllProcess rc s).events
            = [.remote .queryAllStatus,
               .log .fatal ("Failed to get status due to: " ++ err ++ "\n")]
          ∧ deleteAttempts (Cli.DeleteAllProcess rc s).events = []
          ∧ (Cli.DeleteAllProcess rc s).outcome = .fatal) := by
  constructor
  · intro resp hs he
    simp [Cli.DeleteAllProcess, hs, he, remoteCalls, deleteAttempts, logRecords]
  · intro err hs
    simp [Cli.DeleteAllProcess, hs, deleteAttempts]

theorem DeleteAllProcess_empty_or_unreachable_witness :
    (scriptedClient.MonitStatus idle = .ok { Procs := [] }
        ∧ logRecords (Cli.DeleteAllProcess scriptedClient idle).events
            = [(Level.warn, "All processes have been stopped and deleted")]
        ∧ (Cli.DeleteAllProcess scriptedClient idle).outcome = .returned)
      ∧ (scriptedClient.MonitStatus silent = .error "connection refused"
        ∧ deleteAttempts (Cli.DeleteAllProcess scriptedClient silent).events = []
        ∧ (Cli.DeleteAllProcess scriptedClient silent).outcome = .fatal) :=
  have h1 := (DeleteAllProcess_empty_or_unreachable scriptedClient idle).1
    { Procs := [] } rfl rfl
  have h2 := (DeleteAllProcess_empty_or_unreachable scriptedClient silent).2
    "connection refused" rfl
  ⟨⟨rfl, h1.2.2.2.1, h1.2.2.2.2.1⟩, ⟨rfl, h2.2.1, h2.2.2⟩⟩

/-- C8: a failure returned by the remote call of `Save`, `StartGoBin`,
`RestartProcess`, `StopProcess`, `DeleteProcess` (the last three on a name whose detail
mapping is not empty) or `Status` is written as one `fatal` record and the run ends in
the fatal exit; a failure returned by the remote call of `StartProcess` is written as
one `error` record and the command returns normally; and `StartProcess` sends exactly
the `startByName` call, with no `queryByName` before it. -/
theorem failure_severity_policy (rc : RemoteClient σ) (s s1 : σ) (err statusErr : Error)
    (procName sourcePath : String) (keepAlive binFile : Bool) (args : List String)
    (fmtMem : Int → String) :
    (rc.Save s = (some err, s1) →
        (Cli.Save rc s).outcome = .fatal
          ∧ logRecords (Cli.Save rc s).events
              = [(Level.fatal, "Failed to save list of processes due to: " ++ err ++ "\n")])
      ∧ (rc.StartGoBin sourcePath procName keepAlive args binFile s = (some err, s1) →
        (Cli.StartGoBin rc sourcePath procName keepAlive args binFile s).outcome = .fatal
          ∧ logRecords (Cli.StartGoBin rc sourcePath procName keepAlive args binFile s).events
              = [(Level.fatal, "Failed to start go bin due to: " ++ err ++ "\n")])
      ∧ (rc.GetProcByName procName s ≠ [] → rc.RestartProcess procName s = (some err, s1) →
        (Cli.RestartProcess rc procName s).outcome = .fatal
          ∧ logRecords (Cli.RestartProcess rc procName s).events
              = [(Level.fatal, "Failed to restart process due to: " ++ err ++ "\n")])
      ∧ (rc.GetProcByName procName s ≠ [] → rc.StopProcess procName s = (some err, s1) →
        (Cli.StopProcess rc procName s).outcome = .fatal
          ∧ logRecords (Cli.StopProcess rc procName s).events
              = [(Level.fatal, "Failed to stop process due to: " ++ err ++ "\n")])
      ∧ (rc.GetProcByName procName s ≠ [] → rc.DeleteProcess procName s = (some err, s1) →
        (Cli.DeleteProcess rc procName s).outcome = .fatal
          ∧ logRecords (Cli.DeleteProcess rc procName s).events
              = [(Level.fatal, "Failed to delete process due to: " ++ err ++ "\n")])
      ∧ (rc.MonitStatus s = .error statusErr →
        (Cli.Status fmtMem rc s).outcome = .fatal
          ∧ logRecords (Cli.Status fmtMem rc s).events
              = [(Level.fatal, "Failed to get status due to: " ++ statusErr ++ "\n")])
      ∧ (rc.StartProcess procName s = (some err, s1) →
        (Cli.StartProcess rc procName s).outcome = .returned
          ∧ logRecords (Cli.StartProcess rc procName s).events
              = [(Level.error, "Failed to start process due to: " ++ err ++ "\n")])
      ∧ remoteCalls (Cli.StartProcess rc procName s).events = [.startByName procName] := by
  refine ⟨?_, ?_, ?_, ?_, ?_, ?_, ?_, ?_⟩
  · intro h
    simp [Cli.Save, h, logRecords]
  · intro h
    simp [Cli.StartGoBin, h, logRecords]
  · intro hq h
    simp [Cli.RestartProcess, hq, h, logRecords]
  · intro hq h
    simp [Cli.StopProcess, hq, h, logRecords]
  · intro hq h
    simp [Cli.DeleteProcess, hq, h, logRecords]
  · intro h
    simp [Cli.Status, h, logRecords]
  · intro h
    simp [Cli.StartProcess, h, logRecords]
  · rcases h : rc.StartProcess procName s with ⟨_ | e, s2⟩ <;>
      simp [Cli.StartProcess, h, remoteCalls]

theorem failure_severity_policy_witness :
    (scriptedClient.Save broken = (some "boom", { broken with script := [] })
        ∧ (Cli.Save scriptedClient broken).outcome = .fatal)
      ∧ (scriptedClient.StartGoBin "./web.go" "web" true [] false broken
            = (some "boom", { broken with script := [] })
        ∧ (Cli.StartGoBin scriptedClient "./web.go" "web" true [] false broken).outcome
            = .fatal)
      ∧ (scriptedClient.GetProcByName "web" broken ≠ []
        ∧ scriptedClient.DeleteProcess "web" broken = (some "boom", { broken with script := [] })
        ∧ (Cli.RestartProcess scriptedClient "web" broken).outcome = .fatal
        ∧ (Cli.StopProcess scriptedClient "web" broken).outcome = .fatal
        ∧ (Cli.DeleteProcess scriptedClient "web" broken).outcome = .fatal)
      ∧ (scriptedClient.MonitStatus broken = .error "connection refused"
        ∧ (Cli.Status (fun n => toString n) scriptedClient broken).outcome = .fatal)
      ∧ (scriptedClient.StartProcess "web" broken = (some "boom", { broken with script := [] })
        ∧ (Cli.StartProcess scriptedClient "web" broken).outcome = .returned
        ∧ logRecords (Cli.StartProcess scriptedClient "web" broken).events
            = [(Level.error, "Failed to start process due to: boom\n")]) :=
  have h := failure_severity_policy scriptedClient broken { broken with script := [] } "boom"
    "connection refused" "web" "./web.go" true false [] (fun n => toString n)
  ⟨⟨rfl, (h.1 rfl).1⟩,
   ⟨rfl, (h.2.1 rfl).1⟩,
   ⟨by decide, rfl, (h.2.2.1 (by decide) rfl).1, (h.2.2.2.1 (by decide) rfl).1,
    (h.2.2.2.2.1 (by decide) rfl).1⟩,
   ⟨rfl, (h.2.2.2.2.2.1 rfl).1⟩,
   ⟨rfl, (h.2.2.2.2.2.2.1 rfl).1, (h.2.2.2.2.2.2.1 rfl).2⟩⟩

/-- C9: when the existence check finds a non-empty detail mapping, each of
`RestartProcess`, `StopProcess` and `DeleteProcess` sends exactly two remote calls,
whatever the daemon answers: first `queryByName` and then the mutating call of its own
kind, both carrying the name given by the operator. -/
theorem present_name_one_check_one_call (rc : RemoteClient σ) (procName : String) (s : σ)
    (h : rc.GetProcByName procName s ≠ []) :
    remoteCalls (Cli.RestartProcess rc procName s).events
        = [.queryByName procName, .restartByName procName]
      ∧ remoteCalls (Cli.StopProcess rc procName s).events
        = [.queryByName procName, .stopByName procName]
      ∧ remoteCalls (Cli.DeleteProcess rc procName s).events
        = [.queryByName procName, .deleteByName procName] := by
  refine ⟨?_, ?_, ?_⟩
  · rcases hr : rc.RestartProcess procName s with ⟨_ | e, s2⟩ <;>
      simp [Cli.RestartProcess, h, hr, remoteCalls]
  · rcases hr : rc.StopProcess procName s with ⟨_ | e, s2⟩ <;>
      simp [Cli.StopProcess, h, hr, remoteCalls]
  · rcases hr : rc.DeleteProcess procName s with ⟨_ | e, s2⟩ <;>
      simp [Cli.DeleteProcess, h, hr, remoteCalls]

theorem present_name_one_check_one_call_witness :
    scriptedClient.GetProcByName "web" failingFirst ≠ []
      ∧ remoteCalls (Cli.RestartProcess scriptedClient "web" failingFirst).events
          = [.queryByName "web", .restartByName "web"]
      ∧ remoteCalls (Cli.StopProcess scriptedClient "web" allFine).events
          = [.queryByName "web", .stopByName "web"]
      ∧ remoteCalls (Cli.DeleteProcess scriptedClient "web" failingFirst).events
          = [.queryByName "web", .deleteByName "web"] :=
  have h := present_name_one_check_one_call scriptedClient "web" failingFirst (by decide)
  ⟨by decide, h.1,
   (present_name_one_check_one_call scriptedClient "web" allFine (by decide)).2.1, h.2.2⟩

end Dispatcher

/-! ## Theorems: the log follower -/

theorem map_file_set (ws : List Watcher) (i : Nat) (w w1 : Watcher)
    (h : ws[i]? = some w) (hf : w1.file = w.file) :
    (ws.set i w1).map Watcher.file = ws.map Watcher.file := by
  induction ws generalizing i with
  | nil => simp
  | cons x xs ih =>
    cases i with
    | zero =>
      simp at h
      simp [h, hf]
    | succ j =>
      simp at h
      simp [ih j (by simpa using h)]

theorem FollowInv_congr (files : List String) (s t : FollowState)
    (hpc : t.pc = s.pc) (hwg : t.wg = s.wg)
    (hlen : t.watchers.length = s.watchers.length)
    (hmap : t.watchers.map Watcher.file = s.watchers.map Watcher.file)
    (h : FollowInv files s) : FollowInv files t := by
  unfold FollowInv at *
  rw [hpc, hwg, hlen, hmap]
  exact h

theorem step_preserves (files : List String) (hfiles : files ≠ []) (s t : FollowState)
    (a : Action) (h : FollowInv files s) (hs : step s a = some t) : FollowInv files t := by
  cases a with
  | main =>
    unfold step at hs
    by_cases hc : s.crashed = true
    · simp [hc] at hs
    · simp only [hc] at hs
      unfold FollowInv at h
      cases hpc : s.pc with
      | atAdd f rest =>
        simp only [hpc] at h hs
        simp at hs
        subst hs
        simp [FollowInv, h.1, h.2]
      | atGo f rest =>
        simp only [hpc] at h hs
        simp at hs
        subst hs
        cases rest with
        | nil => simpa [FollowInv, MainPc.enterLoop, h.1, Watcher.file] using h.2
        | cons g r => simpa [FollowInv, MainPc.enterLoop, h.1, Watcher.file] using h.2
      | atWait =>
        simp only [hpc] at h hs
        have hne : s.wg ≠ 0 := by
          rw [h.1]
          intro h0
          have : s.watchers = [] := List.length_eq_zero.mp h0
          rw [this] at h
          exact hfiles h.2.symm
        simp [hne] at hs
      | returned =>
        simp only [hpc] at h
  | tailOpened i =>
    unfold step at hs
    by_cases hc : s.crashed = true
    · simp [hc] at hs
    · simp only [hc, List.get?_eq_getElem?] at hs
      cases hg : s.watchers[i]? with
      | none => simp [hg] at hs
      | some w =>
        cases w <;> simp [hg] at hs
        subst hs
        exact FollowInv_congr files s _ rfl rfl (by simp) (map_file_set _ _ _ _ hg rfl) h
  | tailFailed i =>
    unfold step at hs
    by_cases hc : s.crashed = true
    · simp [hc] at hs
    · simp only [hc, List.get?_eq_getElem?] at hs
      cases hg : s.watchers[i]? with
      | none => simp [hg] at hs
      | some w =>
        cases w <;> simp [hg] at hs
        subst hs
        exact FollowInv_congr files s _ rfl rfl (by simp) (map_file_set _ _ _ _ hg rfl) h
  | line i text =>
    unfold step at hs
    by_cases hc : s.crashed = true
    · simp [hc] at hs
    · simp only [hc, List.get?_eq_getElem?] at hs
      cases hg : s.watchers[i]? with
      | none => simp [hg] at hs
      | some w =>
        cases w <;> simp [hg] at hs
        subst hs
        exact FollowInv_congr files s _ rfl rfl rfl rfl h
  | linesClosed i =>
    unfold step at hs
    by_cases hc : s.crashed = true
    · simp [hc] at hs
    · simp only [hc, List.get?_eq_getElem?] at hs
      cases hg : s.watchers[i]? with
      | none => simp [hg] at hs
      | some w =>
        cases w <;> simp [hg] at hs
        subst hs
        exact FollowInv_congr files s _ rfl rfl (by simp) (map_file_set _ _ _ _ hg rfl) h

theorem run_preserves (files : List String) (hfiles : files ≠ []) (acts : List Action)
    (s t : FollowState) (h : FollowInv files s) (hr : run s acts = some t) :
    FollowInv files t := by
  induction acts generalizing s with
  | nil =>
    simp [run] at hr
    subst hr
    exact h
  | cons a as ih =>
    unfold run at hr
    cases hs : step s a with
    | none => simp [hs] at hr
    | some s1 =>
      simp only [hs] at hr
      exact ih s1 (step_preserves files hfiles s s1 a h hs) hr


theorem followLogs_inv (userDirectory name : String) :
    FollowInv [errFile userDirectory name, outFile userDirectory name]
      (Cli.followLogs userDirectory name) := by
  simp [FollowInv, Cli.followLogs, MainPc.enterLoop]

/-- C10: in every state `followLogs` can reach, under any schedule and any behaviour of
the two tailed files: the `WaitGroup` counter never exceeds 2; once the main goroutine
stands at `wg.Wait()` the counter is 2 and exactly two watchers have been started, the
first for the `.err` file and the second for the `.out` file of the process; and the
call has not returned.  In any state at all, a step that makes `followLogs` return is
taken from `wg.Wait()` with the counter at 0. -/
theorem followLogs_blocks_on_two_watchers (userDirectory name : String)
    (acts : List Action) (s : FollowState)
    (h : run (Cli.followLogs userDirectory name) acts = some s) :
    s.wg ≤ 2
      ∧ (s.pc = .atWait →
          s.wg = 2
            ∧ s.watchers.map Watcher.file
                = [errFile userDirectory name, outFile userDirectory name])
      ∧ s.pc ≠ .returned
      ∧ (∀ (u t : FollowState) (a : Action), u.pc ≠ .returned → step u a = some t →
          t.pc = .returned → u.pc = .atWait ∧ u.wg = 0) := by
  have hinv := run_preserves _ (by simp) acts _ s (followLogs_inv userDirectory name) h
  unfold FollowInv at hinv
  refine ⟨?_, ?_, ?_, ?_⟩
  · cases hpc : s.pc <;> simp only [hpc] at hinv
    · have := congrArg List.length hinv.2
      simp at this
      omega
    · have := congrArg List.length hinv.2
      simp at this
      omega
    · have := congrArg List.length hinv.2
      simp at this
      omega
  · intro hpc
    simp only [hpc] at hinv
    have := congrArg List.length hinv.2
    simp at this
    exact ⟨by omega, hinv.2⟩
  · intro hpc
    simp only [hpc] at hinv
  · intro u t a hu hs ht
    cases a with
    | main =>
      unfold step at hs
      by_cases hc : u.crashed = true
      · simp [hc] at hs
      · simp only [hc] at hs
        cases hpc : u.pc with
        | atAdd f rest =>
          simp [hpc] at hs
          subst hs
          simp at ht
        | atGo f rest =>
          simp [hpc] at hs
          subst hs
          cases rest <;> simp [MainPc.enterLoop] at ht
        | atWait =>
          by_cases h0 : u.wg = 0
          · exact ⟨rfl, h0⟩
          · simp [hpc, h0] at hs
        | returned => exact absurd hpc hu
    | tailOpened i =>
      unfold step at hs
      by_cases hc : u.crashed = true
      · simp [hc] at hs
      · simp only [hc, List.get?_eq_getElem?] at hs
        cases hg : u.watchers[i]? with
        | none => simp [hg] at hs
        | some w =>
          cases w <;> simp [hg] at hs
          subst hs
          exact absurd ht hu
    | tailFailed i =>
      unfold step at hs
      by_cases hc : u.crashed = true
      · simp [hc] at hs
      · simp only [hc, List.get?_eq_getElem?] at hs
        cases hg : u.watchers[i]? with
        | none => simp [hg] at hs
        | some w =>
          cases w <;> simp [hg] at hs
          subst hs
          exact absurd ht hu
    | line i text =>
      unfold step at hs
      by_cases hc : u.crashed = true
      · simp [hc] at hs
      · simp only [hc, List.get?_eq_getElem?] at hs
        cases hg : u.watchers[i]? with
        | none => simp [hg] at hs
        | some w =>
          cases w <;> simp [hg] at hs
          subst hs
          exact absurd ht hu
    | linesClosed i =>
      unfold step at hs
      by_cases hc : u.crashed = true
      · simp [hc] at hs
      · simp only [hc, List.get?_eq_getElem?] at hs
        cases hg : u.watchers[i]? with
        | none => simp [hg] at hs
        | some w =>
          cases w <;> simp [hg] at hs
          subst hs
          exact absurd ht hu

theorem followLogs_blocks_on_two_watchers_witness :
    run (Cli.followLogs "/home/op" "web")
        [.main, .main, .main, .main, .tailOpened 0, .tailOpened 1, .line 1 [111],
         .linesClosed 0, .linesClosed 1] = some bothFinished
      ∧ bothFinished.wg = 2
      ∧ bothFinished.watchers.map Watcher.file
          = [errFile "/home/op" "web", outFile "/home/op" "web"]
      ∧ bothFinished.pc ≠ .returned :=
  have h := followLogs_blocks_on_two_watchers "/home/op" "web"
    [.main, .main, .main, .main, .tailOpened 0, .tailOpened 1, .line 1 [111],
     .linesClosed 0, .linesClosed 1] bothFinished (by decide)
  ⟨by decide, (h.2.1 rfl).1, (h.2.1 rfl).2, h.2.2.1⟩

/-- With `follow = true`, `Logs` hands control to `followLogs` whether or not the log
directory exists. -/
theorem Logs_follow_enters_followLogs (fs : FileSystem) (name home : String)
    (hh : fs.UserHomeDir = .ok home) :
    (Cli.Logs fs name true).outcome = .following (Cli.followLogs home name) := by
  simp [Cli.Logs, hh]

/-- C6 (evaluation at the failing input): with no log directory for `web` and
`follow = true`, `Logs` prints "logs not found" and then enters `followLogs`, which
starts a watcher on each of the two stream files and stands at `wg.Wait()` with the
counter at 2 instead of returning. -/
theorem Logs_follow_missing_dir_starts_watchers :
    emptyHome.Stat (logDir "/home/op" "web") = false
      ∧ Cli.Logs emptyHome "web" true
          = { events := [.stat "/home/op/.pmgo/web",
                         .println (.str "Process web logs not found")],
              outcome := .following (Cli.followLogs "/home/op" "web") }
      ∧ run (Cli.followLogs "/home/op" "web")
            [.main, .main, .main, .main, .tailOpened 0, .tailOpened 1]
          = some { pc := .atWait, wg := 2,
                   watchers := [.tailing "/home/op/.pmgo/web/web.err",
                                .tailing "/home/op/.pmgo/web/web.out"],
                   stdout := [], crashed := false } := by
  decide

/-! ## Theorems: one-shot log reading -/

theorem printed_append (xs ys : List LogEvent) :
    printed (xs ++ ys) = printed xs ++ printed ys := by
  induction xs with
  | nil => rfl
  | cons e es ih => cases e <;> simp [printed, ih]

theorem printed_println_raw (ls : List (List Nat)) :
    printed (ls.map (fun l => LogEvent.println (.raw l))) = ls.map Text.raw := by
  induction ls with
  | nil => rfl
  | cons l ls ih => simp [printed, ih]

theorem openedFiles_append (xs ys : List LogEvent) :
    openedFiles (xs ++ ys) = openedFiles xs ++ openedFiles ys := by
  induction xs with
  | nil => rfl
  | cons e es ih => cases e <;> simp [openedFiles, ih]

theorem openedFiles_println_raw (ls : List (List Nat)) :
    openedFiles (ls.map (fun l => LogEvent.println (.raw l))) = [] := by
  induction ls with
  | nil => rfl
  | cons l ls ih => simp [openedFiles, ih]

/-- The events of a one-shot `Logs` call when the directory and both files are there. -/
theorem Logs_oneShot_events (fs : FileSystem) (name home : String) (e o : List Nat)
    (hh : fs.UserHomeDir = .ok home)
    (hd : fs.Stat (logDir home name) = true)
    (hse : fs.Stat (errFile home name) = true)
    (hso : fs.Stat (outFile home name) = true)
    (hoe : fs.Open (errFile home name) = some e)
    (hoo : fs.Open (outFile home name) = some o) :
    Cli.Logs fs name false =
      { events :=
          [.stat (logDir home name), .stat (errFile home name), .openFile (errFile home name)]
            ++ (scanLines e).map (fun l => LogEvent.println (.raw l))
            ++ [.stat (outFile home name), .openFile (outFile home name)]
            ++ (scanLines o).map (fun l => LogEvent.println (.raw l))
            ++ [.close (outFile home name), .close (errFile home name)],
        outcome := .returned } := by
  unfold logDir at hd
  simp [Cli.Logs, hh, hd, Cli.getLogs, Cli.getLogsLoop, hse, hso, hoe, hoo, logDir]

/-- The scanner's `dropCR` removes exactly the `'\r'` of a `'\r\n'` terminator. -/
theorem dropCR_eq_lineText (raw : List Nat) : dropCR raw = lineText raw := by
  rcases List.eq_nil_or_concat raw with h | ⟨xs, c, h⟩
  · subst h
    rfl
  · subst h
    by_cases hc : c = carriageReturn
    · simp [dropCR, lineText, hc]
    · simp [dropCR, lineText, hc]

theorem lineText_replicate (n b : Nat) (hb : b ≠ carriageReturn) :
    lineText (List.replicate n b) = List.replicate n b := by
  cases n with
  | zero => rfl
  | succ k =>
    unfold lineText
    rw [List.reverse_replicate, List.replicate_succ]
    simp only [if_neg hb]

/-- Below the buffer limit the scanner delivers the lines of the file: when every raw
line (its `'\r'` included) is shorter than `MaxScanTokenSize`, the tokens are the raw
lines with the `'\r'` of the terminator removed. -/
theorem scanFrom_eq_splitFrom (input : List Nat) (cur : List Nat)
    (h : ∀ l ∈ splitFrom cur input, l.length < MaxScanTokenSize) :
    scanFrom cur input = (splitFrom cur input).map lineText := by
  induction input generalizing cur with
  | nil =>
    by_cases hc : cur = []
    · simp [scanFrom, splitFrom, hc]
    · have hl : cur.length < MaxScanTokenSize := h cur (by simp [splitFrom, hc])
      simp [scanFrom, splitFrom, hc, Nat.not_le.mpr hl, dropCR_eq_lineText]
  | cons b rest ih =>
    by_cases hb : b = newline
    · have hl : cur.length < MaxScanTokenSize := h cur (by simp [splitFrom, hb])
      have hrest : ∀ l ∈ splitFrom [] rest, l.length < MaxScanTokenSize := by
        intro l hlmem
        exact h l (by simp [splitFrom, hb, hlmem])
      simp [scanFrom, splitFrom, hb, Nat.not_le.mpr hl, ih [] hrest, dropCR_eq_lineText]
    · have hrest : ∀ l ∈ splitFrom (cur ++ [b]) rest, l.length < MaxScanTokenSize := by
        intro l hlmem
        exact h l (by simpa [splitFrom, hb] using hlmem)
      simp [scanFrom, splitFrom, hb, ih (cur ++ [b]) hrest]

theorem scanFrom_replicate (n b : Nat) (hb : b ≠ newline) (cur rest : List Nat) :
    scanFrom cur (List.replicate n b ++ rest) = scanFrom (cur ++ List.replicate n b) rest := by
  induction n generalizing cur with
  | zero => simp
  | succ k ih =>
    show scanFrom cur (b :: (List.replicate k b ++ rest)) = _
    rw [scanFrom, if_neg hb, ih, List.replicate_succ, List.append_assoc]
    rfl

theorem splitFrom_replicate (n b : Nat) (hb : b ≠ newline) (cur rest : List Nat) :
    splitFrom cur (List.replicate n b ++ rest)
      = splitFrom (cur ++ List.replicate n b) rest := by
  induction n generalizing cur with
  | zero => simp
  | succ k ih =>
    show splitFrom cur (b :: (List.replicate k b ++ rest)) = _
    rw [splitFrom, if_neg hb, ih, List.replicate_succ, List.append_assoc]
    rfl

/-- A first line of `MaxScanTokenSize` bytes or more makes the scanner deliver nothing. -/
theorem scanLines_long_first_line (n b : Nat) (hb : b ≠ newline)
    (hn : MaxScanTokenSize ≤ n) (rest : List Nat) :
    scanLines (List.replicate n b ++ newline :: rest) = [] := by
  unfold scanLines
  rw [scanFrom_replicate n b hb, scanFrom, if_pos rfl, if_pos]
  simpa using hn

theorem splitLines_first_line (n b : Nat) (hb : b ≠ newline) (rest : List Nat) :
    splitLines (List.replicate n b ++ newline :: rest)
      = List.replicate n b :: splitLines rest := by
  unfold splitLines
  rw [splitFrom_replicate n b hb, splitFrom, if_pos rfl, List.nil_append]

theorem scanLines_longErrContent : scanLines longErrContent = [] :=
  scanLines_long_first_line 65536 97 (by decide) (by decide) [98, 10]

theorem fileLines_longErrContent :
    fileLines longErrContent = [List.replicate 65536 97, [98]] := by
  unfold fileLines
  rw [show longErrContent = List.replicate 65536 97 ++ newline :: [98, 10] from rfl,
    splitLines_first_line 65536 97 (by decide)]
  show [lineText (List.replicate 65536 97), [98]] = _
  rw [lineText_replicate 65536 97 (by decide)]

/-- One-shot reading below the scanner's limit.  When `Stat` succeeds on the log
directory and on both stream files, `Open` gives their contents, and every raw line of
the two files (its `'\r'` included) is shorter than `MaxScanTokenSize` bytes, `Logs`
with `follow = false` prints exactly the lines of the `.err` file in file order
followed by the lines of the `.out` file in file order and nothing else, opens exactly
these two files, and returns. -/
theorem Logs_oneShot_prints_err_then_out (fs : FileSystem) (name home : String)
    (e o : List Nat)
    (hh : fs.UserHomeDir = .ok home)
    (hd : fs.Stat (logDir home name) = true)
    (hse : fs.Stat (errFile home name) = true)
    (hso : fs.Stat (outFile home name) = true)
    (hoe : fs.Open (errFile home name) = some e)
    (hoo : fs.Open (outFile home name) = some o)
    (hle : ∀ l ∈ splitLines e, l.length < MaxScanTokenSize)
    (hlo : ∀ l ∈ splitLines o, l.length < MaxScanTokenSize) :
    printed (Cli.Logs fs name false).events = (fileLines e ++ fileLines o).map Text.raw
      ∧ openedFiles (Cli.Logs fs name false).events = [errFile home name, outFile home name]
      ∧ (Cli.Logs fs name false).outcome = .returned := by
  rw [Logs_oneShot_events fs name home e o hh hd hse hso hoe hoo]
  have he : scanLines e = fileLines e := scanFrom_eq_splitFrom e [] hle
  have ho : scanLines o = fileLines o := scanFrom_eq_splitFrom o [] hlo
  refine ⟨?_, ?_, rfl⟩
  · simp [printed_append, printed_println_raw, printed, he, ho]
  · simp [openedFiles_append, openedFiles_println_raw, openedFiles]

theorem Logs_oneShot_prints_err_then_out_witness :
    printed (Cli.Logs smallLogs "web" false).events
        = [.raw [101, 49], .raw [101, 50], .raw [111, 49], .raw [111, 50]]
      ∧ (Cli.Logs smallLogs "web" false).outcome = .returned :=
  have h := Logs_oneShot_prints_err_then_out smallLogs "web" "/home/op"
    [101, 49, 10, 101, 50, 13, 10] [111, 49, 10, 111, 50] rfl (by decide) (by decide)
    (by decide) (by decide) (by decide) (by decide) (by decide)
  ⟨by rw [h.1]; decide, h.2.2⟩

/-- C7 (evaluation at the failing input): the log directory and both stream files of
`web` exist; `web.err` holds a line of 65536 bytes `a` followed by the line `b`,
`web.out` holds the line `o`.  The lines of `web.err` are those two lines, yet one-shot
`Logs` prints the line `o` only and returns: the scanner loop over `web.err` ends at
the long line, `scanner.Err()` is never read, and nothing of `web.err` is printed. -/
theorem Logs_oneShot_long_line_cuts_output :
    longLineLogs.UserHomeDir = .ok "/home/op"
      ∧ longLineLogs.Stat (logDir "/home/op" "web") = true
      ∧ longLineLogs.Stat (errFile "/home/op" "web") = true
      ∧ longLineLogs.Stat (outFile "/home/op" "web") = true
      ∧ longLineLogs.Open (errFile "/home/op" "web") = some longErrContent
      ∧ longLineLogs.Open (outFile "/home/op" "web") = some [111, 10]
      ∧ fileLines longErrContent = [List.replicate 65536 97, [98]]
      ∧ fileLines [111, 10] = [[111]]
      ∧ printed (Cli.Logs longLineLogs "web" false).events = [.raw [111]]
      ∧ (Cli.Logs longLineLogs "web" false).outcome = .returned
      ∧ printed (Cli.Logs longLineLogs "web" false).events
          ≠ (fileLines longErrContent ++ fileLines [111, 10]).map Text.raw := by
  have hp : printed (Cli.Logs longLineLogs "web" false).events = [.raw [111]] := by
    rw [Logs_oneShot_events longLineLogs "web" "/home/op" longErrContent [111, 10] rfl
      (by decide) (by decide) (by decide) rfl rfl]
    simp only [printed_append, printed_println_raw, scanLines_longErrContent]
    decide
  have ho : (Cli.Logs longLineLogs "web" false).outcome = .returned := by
    rw [Logs_oneShot_events longLineLogs "web" "/home/op" longErrContent [111, 10] rfl
      (by decide) (by decide) (by decide) rfl rfl]
  refine ⟨rfl, by decide, by decide, by decide, rfl, rfl, fileLines_longErrContent,
    by decide, hp, ho, ?_⟩
  rw [hp, fileLines_longErrContent]
  intro hcontra
  have hlen := congrArg List.length hcontra
  simp only [List.length_map, List.length_append, List.length_cons, List.length_nil] at hlen
  omega

end Pmgo
